import Mathlib

/-!
Shallow embedding of the Gmail popup Send & Archive content script
(`content.js`).  DOM elements are modelled as records of exactly the data
the script reads: node identity, class tokens, the synthetic marker
attribute `data-sab-btn`, and the `data-tooltip` / `aria-label` attributes.
Element scans (`querySelectorAll` plus a loop) become filtered searches
over a document-order list; handlers and timer-driven sequences become
pure functions producing explicit event traces.
-/

namespace GmailSAB

/-- A DOM element as the script observes it: node identity (`id`), the
class tokens of `className`, whether the synthetic marker attribute
`data-sab-btn` is present, and the two attributes the script consults. -/
structure Elem where
  id : Nat
  classes : List String
  hasBtnAttr : Bool
  dataTooltip : Option String
  ariaLabel : Option String
deriving DecidableEq, Repr

/-- The reading `el.getAttribute(name) || ""` used by the script: an absent
attribute reads as the empty string. -/
def attrOrEmpty : Option String → String
  | some s => s
  | none => ""

/-- Membership of a token in the class list, modelling `.cls` selectors. -/
def hasClass (e : Elem) (c : String) : Bool := e.classes.contains c

/-- The `toLowerCase()` call, written over the character list (the same
per-character ASCII lowering as the library function) so that proofs can
evaluate it. -/
def toLowerStr (s : String) : String := String.mk (s.data.map Char.toLower)

/-- The `startsWith` test, written over the character lists so that proofs
can evaluate it. -/
def startsWithStr (s p : String) : Bool := p.data.isPrefixOf s.data

/-- The tooltip/label acceptance test of `findSendButton`: lowercased text
equals "send", or starts with "send " but not with "send &". -/
def sendTextOk (raw : String) : Bool :=
  let t := toLowerStr raw
  t == "send" || (startsWithStr t "send " && !startsWithStr t "send &")

/-- The CSS selector `[aria-label="Send"], [aria-label^="Send "]` on one
element (attribute selectors are case sensitive and absent means no match). -/
def ariaSendSelector (e : Elem) : Bool :=
  match e.ariaLabel with
  | some l => l == "Send" || startsWithStr l "Send "
  | none => false

/-- `findSendButton(composeEl)`: scan the `.aoO` matches by tooltip first,
then the aria-label selector matches by label, skipping elements carrying
the synthetic marker attribute; return the first acceptable element. -/
def findSendButton (composeEl : List Elem) : Option Elem :=
  match (composeEl.filter (fun e => hasClass e "aoO")).find?
      (fun e => !e.hasBtnAttr && sendTextOk (attrOrEmpty e.dataTooltip)) with
  | some el => some el
  | none =>
    (composeEl.filter ariaSendSelector).find?
      (fun e => !e.hasBtnAttr && sendTextOk (attrOrEmpty e.ariaLabel))

/-- Whether an option attribute is present and starts with the prefix
(the CSS `[attr^="p"]` test). -/
def optStartsWith (o : Option String) (p : String) : Bool :=
  match o with
  | some s => startsWithStr s p
  | none => false

/-- The selector of `findNativeSendAndArchiveButton`: tooltip or aria-label
starting with either native text variant. -/
def nativeSandASelector (e : Elem) : Bool :=
  optStartsWith e.dataTooltip "Send & Archive" ||
  optStartsWith e.dataTooltip "Send and archive" ||
  optStartsWith e.ariaLabel "Send & Archive" ||
  optStartsWith e.ariaLabel "Send and archive"

/-- `findNativeSendAndArchiveButton(composeEl)`: first selector match that
does not carry the synthetic marker attribute. -/
def findNativeSendAndArchiveButton (composeEl : List Elem) : Option Elem :=
  (composeEl.filter nativeSandASelector).find? (fun e => !e.hasBtnAttr)

/-- Removal of the first occurrence of a token, modelling the single
(non-global) regex replace of the word `aoO` in `buildButton`. -/
def removeFirst (tok : String) : List String → List String
  | [] => []
  | c :: cs => if c == tok then cs else c :: removeFirst tok cs

/-- `buildButton(sendBtn)`: a fresh element whose classes are the send
button classes with the first `aoO` stripped then `aoO sab-btn` appended,
carrying the synthetic marker attribute, the accessible label and the
descriptive tooltip.  `newId` is the fresh node identity of
`document.createElement`. -/
def buildButton (sendBtn : Elem) (newId : Nat) : Elem :=
  { id := newId
    classes := removeFirst "aoO" sendBtn.classes ++ ["aoO", "sab-btn"]
    hasBtnAttr := true
    ariaLabel := some "Send & Archive"
    dataTooltip := some "Send this message and archive the conversation (Ctrl+Shift+Enter)" }

/-- A document position for the compose-window scan: an element together
with its ancestor chain (nearest parent first, up to the document root). -/
structure Node where
  el : Elem
  ancestors : List Elem
deriving DecidableEq, Repr

/-- `el.closest(".nH")`: the first element of the self-then-ancestors chain
bearing the `nH` class. -/
def closestNH (n : Node) : Option Elem :=
  (n.el :: n.ancestors).find? (fun e => hasClass e "nH")

/-- `dwEl.contains(c)` for an element `c` taken from the chain: `c` occurs
in the chain at or below the `.dw` element. -/
def withinDw (dwEl : Elem) : List Elem → Elem → Bool
  | [], _ => false
  | e :: rest, c =>
    if e.id == c.id then true
    else if e.id == dwEl.id then false
    else withinDw dwEl rest c

/-- The root chosen for one send candidate: the closest `.nH` ancestor when
it is still inside the `.dw`, else the `.dw` element itself. -/
def composeRoot (dwEl : Elem) (n : Node) : Elem :=
  match closestNH n with
  | some c => if withinDw dwEl (n.el :: n.ancestors) c then c else dwEl
  | none => dwEl

/-- The send candidates of `findComposeWindows`: the `.aoO` matches
followed by the aria-label selector matches, each in document order. -/
def sendCandidates (nodes : List Node) : List Node :=
  nodes.filter (fun n => hasClass n.el "aoO") ++
    nodes.filter (fun n => ariaSendSelector n.el)

/-- The candidate loop of `findComposeWindows`: skip candidates carrying
the synthetic marker attribute, resolve each remaining one to its root and
deduplicate roots through the seen set. -/
def findComposeWindowsGo (dwEl : Elem) : List Node → List Nat → List Elem
  | [], _ => []
  | n :: rest, seen =>
    if n.el.hasBtnAttr then findComposeWindowsGo dwEl rest seen
    else if seen.contains (composeRoot dwEl n).id then findComposeWindowsGo dwEl rest seen
    else composeRoot dwEl n :: findComposeWindowsGo dwEl rest ((composeRoot dwEl n).id :: seen)

/-- `findComposeWindows(dwEl)` over the descendants of the `.dw` element. -/
def findComposeWindows (dwEl : Elem) (nodes : List Node) : List Elem :=
  findComposeWindowsGo dwEl (sendCandidates nodes) []

/-- The mouse event types dispatched by `simulateClick`, in dispatch order. -/
def mouseEventSequence : List String := ["mousedown", "mouseup", "click"]

/-- An observable action of the action sequencer. -/
inductive Effect where
  /-- `el.dispatchEvent(new MouseEvent(eventType, ...))` on node `target`. -/
  | dispatch (target : Nat) (eventType : String)
  /-- The high-level `el.click()` call on node `target`. -/
  | domClick (target : Nat)
  /-- Registration of the removal watcher whose callback waits `graceMs`
  milliseconds and then starts the archive sequence. -/
  | watchRemoval (graceMs : Nat)
  /-- One lookup of the archive toolbar control (the selector chain). -/
  | lookupArchive (attempt : Nat)
  /-- A scheduled delay of `ms` milliseconds before the next step. -/
  | wait (ms : Nat)
  /-- The `showToast` failure notification. -/
  | toast (message : String)
deriving DecidableEq, Repr

/-- `simulateClick(el)`: dispatch mousedown, mouseup, click in order. -/
def simulateClick (el : Elem) : List Effect :=
  mouseEventSequence.map (fun t => Effect.dispatch el.id t)

/-- `triggerSendAndArchive(composeEl, sendBtn)`: activate the native
combined control when one is found; otherwise register the removal watcher
(whose callback waits 2000 ms before archiving) and then invoke
`sendBtn.click()` from a zero-delay timeout. -/
def triggerSendAndArchive (composeEl : List Elem) (sendBtn : Elem) : List Effect :=
  match findNativeSendAndArchiveButton composeEl with
  | some nativeBtn => simulateClick nativeBtn
  | none => [Effect.watchRemoval 2000, Effect.domClick sendBtn.id]

/-- The failure toast message of `archiveCurrentConversation` (the
apostrophe is written through its character code). -/
def archiveFailureMessage : String :=
  "Send & Archive: email sent, but the Archive button wasn" ++
    (Char.ofNat 39).toString ++ "t found. Please archive manually."

/-- The retry loop of `archiveCurrentConversation`: each invocation looks
the archive control up (`found attempt` is what the selector chain returns
at that moment); on success it simulate-clicks the control and stops; on
failure with retries left it waits 300 ms and recurses with one retry
fewer; on failure with no retries left it shows the failure toast. -/
def archiveRun (found : Nat → Option Elem) : Nat → Nat → List Effect
  | attempt, 0 =>
    Effect.lookupArchive attempt ::
      match found attempt with
      | some archiveBtn => simulateClick archiveBtn
      | none => [Effect.toast archiveFailureMessage]
  | attempt, n + 1 =>
    Effect.lookupArchive attempt ::
      match found attempt with
      | some archiveBtn => simulateClick archiveBtn
      | none => Effect.wait 300 :: archiveRun found (attempt + 1) n

/-- `archiveCurrentConversation()` with its default budget
`retriesLeft = 8`; attempts are numbered from 1 as in the scripts log. -/
def archiveCurrentConversation (found : Nat → Option Elem) : List Effect :=
  archiveRun found 1 8

/-- A popup compose region: the processed marker attribute, the elements of
its subtree in document order, and the next fresh node identity. -/
structure Region where
  processed : Bool
  elems : List Elem
  nextId : Nat
deriving DecidableEq, Repr

/-- `target.insertAdjacentElement("afterend", b)` in the flat document
order list: insert `b` right after the first element with id `target`. -/
def insertAfter (target : Nat) (b : Elem) : List Elem → List Elem
  | [] => []
  | e :: rest =>
    if e.id == target then e :: b :: rest
    else e :: insertAfter target b rest

/-- `injectButton(composeEl)`: no-op when the processed marker is present
or no send control is locatable; otherwise set the marker, build the
synthetic control and insert it right after the send control. -/
def injectButton (r : Region) : Region :=
  if r.processed then r
  else
    match findSendButton r.elems with
    | none => r
    | some sendBtn =>
      { processed := true
        elems := insertAfter sendBtn.id (buildButton sendBtn r.nextId) r.elems
        nextId := r.nextId + 1 }

/-- The primitive steps `injectButton` performs, in source order. -/
inductive InjectStep where
  | checkProcessed
  | lookupSendButton
  | setProcessedMarker
  | buildControl
  | attachShortcutListener
  | attachButtonKeyListener
  | attachButtonClickListener
  | insertControl
deriving DecidableEq, Repr

/-- The step trace of one `injectButton` invocation. -/
def injectButtonSteps (r : Region) : List InjectStep :=
  if r.processed then [InjectStep.checkProcessed]
  else
    match findSendButton r.elems with
    | none => [InjectStep.checkProcessed, InjectStep.lookupSendButton]
    | some _ =>
      [InjectStep.checkProcessed, InjectStep.lookupSendButton,
       InjectStep.setProcessedMarker, InjectStep.buildControl,
       InjectStep.attachShortcutListener, InjectStep.attachButtonKeyListener,
       InjectStep.attachButtonClickListener, InjectStep.insertControl]

/-- The number of elements in a subtree carrying the synthetic marker
attribute (injected controls). -/
def syntheticCount (l : List Elem) : Nat := l.countP (fun e => e.hasBtnAttr)

/-- A keydown event as the compose shortcut listener reads it: it consults
the key name and the two modifier flags, and can set the suppression
flags. -/
structure KeyEvent where
  key : String
  ctrlKey : Bool
  shiftKey : Bool
  defaultPrevented : Bool
  propagationStopped : Bool
deriving DecidableEq, Repr

/-- The outcome of the capture-phase keydown listener: the event after the
handler ran, and whether the action sequencer was invoked. -/
structure HandlerResult where
  event : KeyEvent
  sequencerInvoked : Bool
deriving DecidableEq, Repr

/-- The capture-phase keydown listener attached by `injectButton`: on
Enter with both Ctrl and Shift held it prevents default handling, stops
immediate propagation and invokes `triggerSendAndArchive`; on anything
else it does nothing. -/
def composeKeydownHandler (e : KeyEvent) : HandlerResult :=
  if e.key == "Enter" && e.ctrlKey && e.shiftKey then
    { event := { e with defaultPrevented := true, propagationStopped := true }
      sequencerInvoked := true }
  else
    { event := e, sequencerInvoked := false }

/-- What `tryInjectWithRetry` reads from the live document at one attempt:
whether the region is still in the document, whether it bears the
processed marker, and whether `findSendButton` succeeds. -/
structure InjectGuards where
  inDocument : Bool
  processed : Bool
  sendButtonFound : Bool
deriving DecidableEq, Repr

/-- An observable step of the `tryInjectWithRetry` chain. -/
inductive RetryEvent where
  | stopRegionGone
  | stopAlreadyProcessed
  | lookupSendButton (attempt : Nat)
  | injectNow (attempt : Nat)
  | wait (ms : Nat)
deriving DecidableEq, Repr

/-- One `tryInjectWithRetry` invocation body: the guard reads, the send
control lookup, and either injection or the not-found continuation. -/
def retryStep (g : InjectGuards) (attempt : Nat) (onNotFound : List RetryEvent) :
    List RetryEvent :=
  if !g.inDocument then [RetryEvent.stopRegionGone]
  else if g.processed then [RetryEvent.stopAlreadyProcessed]
  else if g.sendButtonFound then
    [RetryEvent.lookupSendButton attempt, RetryEvent.injectNow attempt]
  else RetryEvent.lookupSendButton attempt :: onNotFound

/-- `tryInjectWithRetry(composeEl, retriesLeft)`: the whole invocation
chain, where `env attempt` is what the document looks like when the
attempt runs.  With retries left the not-found continuation waits 300 ms
and recurses; with none it stops silently. -/
def tryInjectWithRetry (env : Nat → InjectGuards) : Nat → Nat → List RetryEvent
  | attempt, 0 => retryStep (env attempt) attempt []
  | attempt, n + 1 =>
    retryStep (env attempt) attempt
      (RetryEvent.wait 300 :: tryInjectWithRetry env (attempt + 1) n)

/-- The scan scheduling state: the `scanTimer` handle and the multiset of
pending `scanAll` timers, each a pair of timer id and delay. -/
structure ScanState where
  scanTimer : Option Nat
  pendingScans : List (Nat × Nat)
  nextId : Nat
deriving DecidableEq, Repr

/-- `scheduleScan(delay)`: clear any timer named by `scanTimer`, then set
a fresh timer for `scanAll` after `delay` and remember its id. -/
def scheduleScan (s : ScanState) (delay : Nat) : ScanState :=
  { scanTimer := some s.nextId
    pendingScans :=
      (match s.scanTimer with
       | some tid => s.pendingScans.filter (fun t => !(t.1 == tid))
       | none => s.pendingScans) ++ [(s.nextId, delay)]
    nextId := s.nextId + 1 }

/-- The pending scan timer firing: `scanAll` first resets `scanTimer` to
null, and the fired timer leaves the pending set. -/
def fireScan (s : ScanState) : ScanState :=
  { scanTimer := none
    pendingScans :=
      match s.scanTimer with
      | some tid => s.pendingScans.filter (fun t => !(t.1 == tid))
      | none => s.pendingScans
    nextId := s.nextId }

/-- An operation on the scan scheduling state. -/
inductive ScanOp where
  | schedule (delay : Nat)
  | fire
deriving DecidableEq, Repr

/-- Application of one scan scheduling operation. -/
def applyScanOp (s : ScanState) : ScanOp → ScanState
  | ScanOp.schedule d => scheduleScan s d
  | ScanOp.fire => fireScan s

/-- A sequence of scan scheduling operations from a state. -/
def runScanOps (s : ScanState) (ops : List ScanOp) : ScanState :=
  ops.foldl applyScanOp s

/-- The script startup state: no timer has ever been set. -/
def initialScanState : ScanState :=
  { scanTimer := none, pendingScans := [], nextId := 0 }

/-- An observable step of the removal watcher. -/
inductive WatchEvent where
  /-- The `document.contains(composeEl)` check run on one mutation
  notification, with its outcome. -/
  | checkStillInDocument (stillIn : Bool)
  | disconnectObserver
  | invokeCallback
deriving DecidableEq, Repr

/-- `watchComposeForRemoval(composeEl, onRemoved)`: on each mutation
notification check whether the region is still in the document; on the
first negative check disconnect the observer and invoke the callback, so
later notifications are never delivered.  The input lists, per
notification, whether the region was still in the document. -/
def watchComposeForRemoval : List Bool → List WatchEvent
  | [] => []
  | stillIn :: rest =>
    if stillIn then
      WatchEvent.checkStillInDocument true :: watchComposeForRemoval rest
    else
      [WatchEvent.checkStillInDocument false, WatchEvent.disconnectObserver,
       WatchEvent.invokeCallback]

/-- Whether an effect is an archive-control lookup. -/
def isLookupArchive : Effect → Bool
  | Effect.lookupArchive _ => true
  | _ => false

/-- Whether an effect is a failure toast. -/
def isToastEffect : Effect → Bool
  | Effect.toast _ => true
  | _ => false

/-- Whether a retry event is a send-control lookup. -/
def isLookupSend : RetryEvent → Bool
  | RetryEvent.lookupSendButton _ => true
  | _ => false

/-- Whether a retry event is an injection. -/
def isInjectNow : RetryEvent → Bool
  | RetryEvent.injectNow _ => true
  | _ => false

/-- Whether a watcher event is the callback invocation. -/
def isInvokeCallback : WatchEvent → Bool
  | WatchEvent.invokeCallback => true
  | _ => false

/-- Count of archive lookups in a trace. -/
def lookupArchiveCount (l : List Effect) : Nat := l.countP isLookupArchive

/-- Count of failure toasts in a trace. -/
def toastCount (l : List Effect) : Nat := l.countP isToastEffect

/-- Count of send-control lookups in a retry trace. -/
def lookupSendCount (l : List RetryEvent) : Nat := l.countP isLookupSend

/-- Count of injections in a retry trace. -/
def injectNowCount (l : List RetryEvent) : Nat := l.countP isInjectNow

/-- Count of callback invocations in a watcher trace. -/
def callbackCount (l : List WatchEvent) : Nat := l.countP isInvokeCallback

/-! ## Helper lemmas -/

theorem find?_filter_and (p q : α → Bool) :
    ∀ l : List α, (l.filter q).find? p = l.find? (fun x => q x && p x) := by
  intro l
  induction l with
  | nil => rfl
  | cons a l ih =>
    by_cases h : q a = true
    · by_cases hp : p a = true
      · simp [List.filter_cons, h, hp]
      · simp [List.filter_cons, h, hp, ih]
    · simp [List.filter_cons, h, ih]

theorem find?_eq_head?_filter (p : α → Bool) :
    ∀ l : List α, l.find? p = (l.filter p).head? := by
  intro l
  induction l with
  | nil => rfl
  | cons a l ih =>
    by_cases h : p a = true
    · rw [List.find?_cons_of_pos _ h, List.filter_cons_of_pos h, List.head?_cons]
    · rw [List.find?_cons_of_neg _ h, List.filter_cons_of_neg h, ih]

theorem countP_checks_zero (l : List Bool) :
    List.countP (isInvokeCallback ∘ fun b => WatchEvent.checkStillInDocument b) l = 0 := by
  induction l with
  | nil => rfl
  | cons b l ih => simp [List.countP_cons, ih, isInvokeCallback, Function.comp]

theorem find?_skip_middle (p : α → Bool) (e : α) (he : p e = false) :
    ∀ l1 l2 : List α, (l1 ++ e :: l2).find? p = (l1 ++ l2).find? p := by
  intro l1 l2
  induction l1 with
  | nil =>
    rw [List.nil_append, List.nil_append, List.find?_cons_of_neg _ (by simp [he])]
  | cons a l ih =>
    by_cases h : p a = true
    · simp [h]
    · rw [List.cons_append, List.cons_append, List.find?_cons_of_neg _ h,
        List.find?_cons_of_neg _ h]
      exact ih

/-! ## C8: the compose keydown shortcut handler -/

/-- C8: the capture-phase keydown handler suppresses default handling and
propagation and invokes the sequencer exactly for Enter with both Ctrl and
Shift held; every other key event, in particular plain Ctrl+Enter, is left
unchanged. -/
theorem claim_C8 (e : KeyEvent) :
    ((e.key = "Enter" ∧ e.ctrlKey = true ∧ e.shiftKey = true) →
      (composeKeydownHandler e).event.defaultPrevented = true ∧
      (composeKeydownHandler e).event.propagationStopped = true ∧
      (composeKeydownHandler e).sequencerInvoked = true) ∧
    (¬(e.key = "Enter" ∧ e.ctrlKey = true ∧ e.shiftKey = true) →
      composeKeydownHandler e = { event := e, sequencerInvoked := false }) ∧
    (e.key = "Enter" → e.ctrlKey = true → e.shiftKey = false →
      composeKeydownHandler e = { event := e, sequencerInvoked := false }) := by
  by_cases h : (e.key == "Enter" && e.ctrlKey && e.shiftKey) = true
  · have h3 : e.key = "Enter" ∧ e.ctrlKey = true ∧ e.shiftKey = true := by
      simp only [Bool.and_eq_true, beq_iff_eq] at h
      exact ⟨h.1.1, h.1.2, h.2⟩
    refine ⟨fun _ => ?_, fun hc => absurd h3 hc, fun _ _ hs => ?_⟩
    · simp [composeKeydownHandler, h]
    · exact absurd h3.2.2 (by simp [hs])
  · have hne : ¬(e.key = "Enter" ∧ e.ctrlKey = true ∧ e.shiftKey = true) := by
      intro h3
      exact h (by simp [h3.1, h3.2.1, h3.2.2])
    refine ⟨fun h3 => absurd h3 hne, fun _ => ?_, fun _ _ _ => ?_⟩ <;>
      simp [composeKeydownHandler, h]

/-! ## C6: the removal watcher -/

theorem watchComposeForRemoval_eq (notifs : List Bool) :
    watchComposeForRemoval notifs =
      (notifs.takeWhile (fun b => b)).map (fun b => WatchEvent.checkStillInDocument b) ++
        (if false ∈ notifs then
          [WatchEvent.checkStillInDocument false, WatchEvent.disconnectObserver,
           WatchEvent.invokeCallback]
         else []) := by
  induction notifs with
  | nil => rfl
  | cons b rest ih =>
    cases b
    · simp [watchComposeForRemoval, List.takeWhile_cons]
    · simp only [watchComposeForRemoval, List.takeWhile_cons, List.mem_cons]
      simp [ih]

theorem watch_disconnect_before_callback (notifs : List Bool) :
    ∀ pre post,
      watchComposeForRemoval notifs = pre ++ WatchEvent.invokeCallback :: post →
      pre.getLast? = some WatchEvent.disconnectObserver := by
  induction notifs with
  | nil =>
    intro pre post h
    exact absurd h (by simp [watchComposeForRemoval])
  | cons b rest ih =>
    intro pre post h
    cases b
    · simp only [watchComposeForRemoval] at h
      rcases pre with _ | ⟨a, _ | ⟨a2, _ | ⟨a3, pre⟩⟩⟩ <;> simp_all
    · simp only [watchComposeForRemoval, if_pos] at h
      rcases pre with _ | ⟨a, pre⟩
      · simp at h
      · have h2 : watchComposeForRemoval rest = pre ++ WatchEvent.invokeCallback :: post := by
          have := List.cons.injEq a (watchComposeForRemoval rest)
              (WatchEvent.checkStillInDocument true) (pre ++ WatchEvent.invokeCallback :: post)
          simp only [List.cons_append] at h
          exact (List.cons.inj h).2
        have hl := ih pre post h2
        have hpre : pre ≠ [] := by
          intro hnil
          rw [hnil] at hl
          simp at hl
        rcases pre with _ | ⟨p, pre⟩
        · exact absurd rfl hpre
        · simpa using hl

/-- C6: the removal watcher trace equals true-checks up to the first
removal notification, then one negative check, the disconnect and the
callback; the callback fires at most once, exactly when some notification
finds the region removed, and the disconnect immediately precedes it. -/
theorem claim_C6 (notifications : List Bool) :
    watchComposeForRemoval notifications =
      (notifications.takeWhile (fun b => b)).map
          (fun b => WatchEvent.checkStillInDocument b) ++
        (if false ∈ notifications then
          [WatchEvent.checkStillInDocument false, WatchEvent.disconnectObserver,
           WatchEvent.invokeCallback]
         else []) ∧
    callbackCount (watchComposeForRemoval notifications) ≤ 1 ∧
    (WatchEvent.invokeCallback ∈ watchComposeForRemoval notifications ↔
      false ∈ notifications) ∧
    (∀ pre post,
      watchComposeForRemoval notifications = pre ++ WatchEvent.invokeCallback :: post →
      pre.getLast? = some WatchEvent.disconnectObserver) := by
  refine ⟨watchComposeForRemoval_eq notifications, ?_, ?_,
    watch_disconnect_before_callback notifications⟩
  · rw [watchComposeForRemoval_eq notifications]
    by_cases h : false ∈ notifications <;>
      simp [h, callbackCount, List.countP_append, List.countP_cons, isInvokeCallback,
        countP_checks_zero]
  · rw [watchComposeForRemoval_eq notifications]
    by_cases h : false ∈ notifications <;> simp [h]

/-! ## C3: the native combined control path -/

/-- C3: when a native combined send-and-archive control is found at
activation time, the sequencer only simulate-clicks that control: no
removal watcher is registered, no plain-send click, no archive lookup and
no toast appears in the trace. -/
theorem claim_C3 (composeEl : List Elem) (sendBtn nativeBtn : Elem)
    (h : findNativeSendAndArchiveButton composeEl = some nativeBtn) :
    triggerSendAndArchive composeEl sendBtn = simulateClick nativeBtn ∧
    (∀ g, Effect.watchRemoval g ∉ triggerSendAndArchive composeEl sendBtn) ∧
    (∀ t, Effect.domClick t ∉ triggerSendAndArchive composeEl sendBtn) ∧
    (∀ a, Effect.lookupArchive a ∉ triggerSendAndArchive composeEl sendBtn) ∧
    (∀ m, Effect.toast m ∉ triggerSendAndArchive composeEl sendBtn) := by
  have ht : triggerSendAndArchive composeEl sendBtn = simulateClick nativeBtn := by
    unfold triggerSendAndArchive
    rw [h]
  refine ⟨ht, ?_, ?_, ?_, ?_⟩ <;> intro x <;> rw [ht] <;>
    simp [simulateClick, mouseEventSequence]

/-- A compose region for the C3 witness: a plain send control and a native
combined control. -/
def c3Send : Elem :=
  { id := 3, classes := ["aoO"], hasBtnAttr := false,
    dataTooltip := some "Send", ariaLabel := none }

/-- The native combined control of the C3 witness. -/
def c3Native : Elem :=
  { id := 7, classes := [], hasBtnAttr := false,
    dataTooltip := some "Send & Archive", ariaLabel := none }

/-- Witness for C3 at a concrete region holding a native combined control. -/
theorem claim_C3_witness :
    triggerSendAndArchive [c3Send, c3Native] c3Send = simulateClick c3Native ∧
    (∀ g, Effect.watchRemoval g ∉ triggerSendAndArchive [c3Send, c3Native] c3Send) ∧
    (∀ t, Effect.domClick t ∉ triggerSendAndArchive [c3Send, c3Native] c3Send) ∧
    (∀ a, Effect.lookupArchive a ∉ triggerSendAndArchive [c3Send, c3Native] c3Send) ∧
    (∀ m, Effect.toast m ∉ triggerSendAndArchive [c3Send, c3Native] c3Send) :=
  claim_C3 [c3Send, c3Native] c3Send c3Native (by decide)

/-! ## C5: activation event sequences -/

/-- C5 counterexample region: a plain send control only, no native
combined control. -/
def c5Send : Elem :=
  { id := 1, classes := ["aoO"], hasBtnAttr := false,
    dataTooltip := some "Send", ariaLabel := none }

/-- C5 counterexample: on the fallback path the plain send control is
activated with the high-level click() call, and no low-level mouse event
is ever dispatched on it, contradicting the claim that every sequencer
activation dispatches the pointer-down, pointer-up, click sequence. -/
theorem claim_C5_counterexample :
    triggerSendAndArchive [c5Send] c5Send =
      [Effect.watchRemoval 2000, Effect.domClick 1] ∧
    Effect.domClick 1 ∈ triggerSendAndArchive [c5Send] c5Send ∧
    Effect.dispatch 1 "mousedown" ∉ triggerSendAndArchive [c5Send] c5Send ∧
    Effect.dispatch 1 "mouseup" ∉ triggerSendAndArchive [c5Send] c5Send ∧
    Effect.dispatch 1 "click" ∉ triggerSendAndArchive [c5Send] c5Send := by
  decide

/-- C5 amended: the native combined control and the archive control are
activated by dispatching mousedown, mouseup, click in that order, but the
plain send control on the fallback path is activated by the high-level
click() call, with no low-level dispatch at all. -/
theorem claim_C5_amended (composeEl : List Elem) (sendBtn : Elem)
    (found : Nat → Option Elem) :
    (∀ nb, findNativeSendAndArchiveButton composeEl = some nb →
      triggerSendAndArchive composeEl sendBtn =
        [Effect.dispatch nb.id "mousedown", Effect.dispatch nb.id "mouseup",
         Effect.dispatch nb.id "click"]) ∧
    (findNativeSendAndArchiveButton composeEl = none →
      triggerSendAndArchive composeEl sendBtn =
        [Effect.watchRemoval 2000, Effect.domClick sendBtn.id] ∧
      (∀ t s, Effect.dispatch t s ∉ triggerSendAndArchive composeEl sendBtn)) ∧
    (∀ a r btn, found a = some btn →
      archiveRun found a r =
        [Effect.lookupArchive a, Effect.dispatch btn.id "mousedown",
         Effect.dispatch btn.id "mouseup", Effect.dispatch btn.id "click"]) := by
  refine ⟨?_, ?_, ?_⟩
  · intro nb hnb
    unfold triggerSendAndArchive
    rw [hnb]
    rfl
  · intro hnone
    have ht : triggerSendAndArchive composeEl sendBtn =
        [Effect.watchRemoval 2000, Effect.domClick sendBtn.id] := by
      unfold triggerSendAndArchive
      rw [hnone]
    refine ⟨ht, ?_⟩
    intro t s
    rw [ht]
    simp
  · intro a r btn hb
    cases r <;> simp [archiveRun, hb, simulateClick, mouseEventSequence]

/-! ## C1: the archive retry sequence -/

theorem simulateClick_lookupArchiveCount (el : Elem) :
    List.countP isLookupArchive (simulateClick el) = 0 := by
  simp [simulateClick, mouseEventSequence, List.countP_cons, isLookupArchive]

theorem simulateClick_toastCount (el : Elem) :
    List.countP isToastEffect (simulateClick el) = 0 := by
  simp [simulateClick, mouseEventSequence, List.countP_cons, isToastEffect]

theorem archiveRun_none_zero (found : Nat → Option Elem) (a : Nat)
    (h : found a = none) :
    archiveRun found a 0 =
      [Effect.lookupArchive a, Effect.toast archiveFailureMessage] := by
  rw [archiveRun, h]

theorem archiveRun_none_succ (found : Nat → Option Elem) (a n : Nat)
    (h : found a = none) :
    archiveRun found a (n + 1) =
      Effect.lookupArchive a :: Effect.wait 300 :: archiveRun found (a + 1) n := by
  rw [archiveRun, h]

theorem archiveRun_some (found : Nat → Option Elem) (a r : Nat) (btn : Elem)
    (h : found a = some btn) :
    archiveRun found a r = Effect.lookupArchive a :: simulateClick btn := by
  cases r <;> rw [archiveRun, h]

theorem lookupArchiveCount_nil : lookupArchiveCount [] = 0 := rfl

theorem toastCount_nil : toastCount [] = 0 := rfl

theorem lookupArchiveCount_cons_lookup (a : Nat) (l : List Effect) :
    lookupArchiveCount (Effect.lookupArchive a :: l) = lookupArchiveCount l + 1 := by
  simp [lookupArchiveCount, List.countP_cons, isLookupArchive]

theorem lookupArchiveCount_cons_wait (ms : Nat) (l : List Effect) :
    lookupArchiveCount (Effect.wait ms :: l) = lookupArchiveCount l := by
  simp [lookupArchiveCount, List.countP_cons, isLookupArchive]

theorem lookupArchiveCount_cons_toast (m : String) (l : List Effect) :
    lookupArchiveCount (Effect.toast m :: l) = lookupArchiveCount l := by
  simp [lookupArchiveCount, List.countP_cons, isLookupArchive]

theorem toastCount_cons_lookup (a : Nat) (l : List Effect) :
    toastCount (Effect.lookupArchive a :: l) = toastCount l := by
  simp [toastCount, List.countP_cons, isToastEffect]

theorem toastCount_cons_wait (ms : Nat) (l : List Effect) :
    toastCount (Effect.wait ms :: l) = toastCount l := by
  simp [toastCount, List.countP_cons, isToastEffect]

theorem toastCount_cons_toast (m : String) (l : List Effect) :
    toastCount (Effect.toast m :: l) = toastCount l + 1 := by
  simp [toastCount, List.countP_cons, isToastEffect]

theorem lookupArchiveCount_simulateClick (el : Elem) :
    lookupArchiveCount (simulateClick el) = 0 :=
  simulateClick_lookupArchiveCount el

theorem toastCount_simulateClick (el : Elem) :
    toastCount (simulateClick el) = 0 :=
  simulateClick_toastCount el

theorem archiveRun_lookup_le (found : Nat → Option Elem) :
    ∀ r a, lookupArchiveCount (archiveRun found a r) ≤ r + 1 := by
  intro r
  induction r with
  | zero =>
    intro a
    cases h : found a
    · rw [archiveRun_none_zero found a h, lookupArchiveCount_cons_lookup,
        lookupArchiveCount_cons_toast, lookupArchiveCount_nil]
    · rw [archiveRun_some found a 0 _ h, lookupArchiveCount_cons_lookup,
        lookupArchiveCount_simulateClick]
  | succ n ih =>
    intro a
    cases h : found a
    · rw [archiveRun_none_succ found a n h, lookupArchiveCount_cons_lookup,
        lookupArchiveCount_cons_wait]
      have := ih (a + 1)
      omega
    · rw [archiveRun_some found a (n + 1) _ h, lookupArchiveCount_cons_lookup,
        lookupArchiveCount_simulateClick]
      omega

theorem archiveRun_toast_le (found : Nat → Option Elem) :
    ∀ r a, toastCount (archiveRun found a r) ≤ 1 := by
  intro r
  induction r with
  | zero =>
    intro a
    cases h : found a
    · rw [archiveRun_none_zero found a h, toastCount_cons_lookup,
        toastCount_cons_toast, toastCount_nil]
    · rw [archiveRun_some found a 0 _ h, toastCount_cons_lookup,
        toastCount_simulateClick]
      omega
  | succ n ih =>
    intro a
    cases h : found a
    · rw [archiveRun_none_succ found a n h, toastCount_cons_lookup,
        toastCount_cons_wait]
      exact ih (a + 1)
    · rw [archiveRun_some found a (n + 1) _ h, toastCount_cons_lookup,
        toastCount_simulateClick]
      omega

theorem archiveRun_wait_300 (found : Nat → Option Elem) :
    ∀ r a ms, Effect.wait ms ∈ archiveRun found a r → ms = 300 := by
  intro r
  induction r with
  | zero =>
    intro a ms hm
    cases h : found a
    · rw [archiveRun_none_zero found a h] at hm
      simp at hm
    · rw [archiveRun_some found a 0 _ h] at hm
      simp [simulateClick, mouseEventSequence] at hm
  | succ n ih =>
    intro a ms hm
    cases h : found a
    · rw [archiveRun_none_succ found a n h] at hm
      simp only [List.mem_cons] at hm
      rcases hm with h1 | h1 | h1
      · exact absurd h1 (by simp)
      · exact Effect.wait.inj h1
      · exact ih (a + 1) ms h1
    · rw [archiveRun_some found a (n + 1) _ h] at hm
      simp [simulateClick, mouseEventSequence] at hm

theorem archiveRun_all_fail (found : Nat → Option Elem) :
    ∀ r a, (∀ i, a ≤ i → i ≤ a + r → found i = none) →
      lookupArchiveCount (archiveRun found a r) = r + 1 ∧
      toastCount (archiveRun found a r) = 1 ∧
      (archiveRun found a r).getLast? = some (Effect.toast archiveFailureMessage) := by
  intro r
  induction r with
  | zero =>
    intro a hall
    have h : found a = none := hall a (Nat.le_refl a) (by omega)
    rw [archiveRun_none_zero found a h]
    refine ⟨?_, ?_, rfl⟩
    · rw [lookupArchiveCount_cons_lookup, lookupArchiveCount_cons_toast,
        lookupArchiveCount_nil]
    · rw [toastCount_cons_lookup, toastCount_cons_toast, toastCount_nil]
  | succ n ih =>
    intro a hall
    have h : found a = none := hall a (Nat.le_refl a) (by omega)
    obtain ⟨hl, ht, hlast⟩ := ih (a + 1) (fun i h1 h2 => hall i (by omega) (by omega))
    have hne : archiveRun found (a + 1) n ≠ [] := by
      cases n <;> cases hf : found (a + 1) <;> simp [archiveRun, hf, simulateClick,
        mouseEventSequence]
    obtain ⟨c, R, hcr⟩ := List.exists_cons_of_ne_nil hne
    rw [archiveRun_none_succ found a n h]
    refine ⟨?_, ?_, ?_⟩
    · rw [lookupArchiveCount_cons_lookup, lookupArchiveCount_cons_wait, hl]
    · rw [toastCount_cons_lookup, toastCount_cons_wait, ht]
    · rw [hcr] at hlast ⊢
      simp only [List.getLast?_cons_cons]
      exact hlast

theorem archiveRun_found_at (found : Nat → Option Elem) :
    ∀ r a k btn, a ≤ k → k ≤ a + r → (∀ i, a ≤ i → i < k → found i = none) →
      found k = some btn →
      lookupArchiveCount (archiveRun found a r) = k + 1 - a ∧
      toastCount (archiveRun found a r) = 0 ∧
      ∃ pre, archiveRun found a r = pre ++ simulateClick btn := by
  intro r
  induction r with
  | zero =>
    intro a k btn hak hka hbefore hk
    have hek : k = a := by omega
    subst hek
    rw [archiveRun_some found k 0 btn hk]
    refine ⟨?_, ?_, [Effect.lookupArchive k], rfl⟩
    · rw [lookupArchiveCount_cons_lookup, lookupArchiveCount_simulateClick]
      omega
    · rw [toastCount_cons_lookup, toastCount_simulateClick]
  | succ n ih =>
    intro a k btn hak hka hbefore hk
    by_cases hek : k = a
    · subst hek
      rw [archiveRun_some found k (n + 1) btn hk]
      refine ⟨?_, ?_, [Effect.lookupArchive k], rfl⟩
      · rw [lookupArchiveCount_cons_lookup, lookupArchiveCount_simulateClick]
        omega
      · rw [toastCount_cons_lookup, toastCount_simulateClick]
    · have ha : found a = none := hbefore a (Nat.le_refl a) (by omega)
      obtain ⟨hl, ht, pre, hpre⟩ := ih (a + 1) k btn (by omega) (by omega)
        (fun i h1 h2 => hbefore i (by omega) h2) hk
      rw [archiveRun_none_succ found a n ha]
      refine ⟨?_, ?_, Effect.lookupArchive a :: Effect.wait 300 :: pre, ?_⟩
      · rw [lookupArchiveCount_cons_lookup, lookupArchiveCount_cons_wait, hl]
        omega
      · rw [toastCount_cons_lookup, toastCount_cons_wait, ht]
      · rw [hpre]
        rfl

/-- C1 counterexample: with the default budget and the archive control
never found, the sequence performs 9 lookup attempts, not at most 8. -/
theorem claim_C1_counterexample :
    lookupArchiveCount (archiveCurrentConversation (fun _ => none)) = 9 ∧
    ¬ lookupArchiveCount (archiveCurrentConversation (fun _ => none)) ≤ 8 := by
  decide

/-- C1 amended: with the default budget the archive sequence performs at
most 9 lookup attempts (the initial one plus up to 8 retries), all
rescheduling delays are 300 ms, the failure toast is shown exactly once
after the last attempt when no attempt finds the control, and a found
control on attempt k terminates the sequence with its simulate-click,
after exactly k attempts and with no toast. -/
theorem claim_C1_amended (found : Nat → Option Elem) :
    lookupArchiveCount (archiveCurrentConversation found) ≤ 9 ∧
    toastCount (archiveCurrentConversation found) ≤ 1 ∧
    (∀ ms, Effect.wait ms ∈ archiveCurrentConversation found → ms = 300) ∧
    ((∀ i, 1 ≤ i → i ≤ 9 → found i = none) →
      lookupArchiveCount (archiveCurrentConversation found) = 9 ∧
      toastCount (archiveCurrentConversation found) = 1 ∧
      (archiveCurrentConversation found).getLast? =
        some (Effect.toast archiveFailureMessage)) ∧
    (∀ k btn, 1 ≤ k → k ≤ 9 → (∀ i, 1 ≤ i → i < k → found i = none) →
      found k = some btn →
      lookupArchiveCount (archiveCurrentConversation found) = k ∧
      toastCount (archiveCurrentConversation found) = 0 ∧
      ∃ pre, archiveCurrentConversation found = pre ++ simulateClick btn) := by
  refine ⟨archiveRun_lookup_le found 8 1, archiveRun_toast_le found 8 1,
    archiveRun_wait_300 found 8 1, ?_, ?_⟩
  · intro hall
    exact archiveRun_all_fail found 8 1 (fun i h1 h2 => hall i h1 (by omega))
  · intro k btn h1 h9 hbefore hk
    have := archiveRun_found_at found 8 1 k btn h1 (by omega) hbefore hk
    rw [show k + 1 - 1 = k by omega] at this
    exact this

/-! ## C4: characterization of the send-button finder -/

/-- The qualifying candidates of the marker-class pass, in scan order. -/
def sendQualifiedByClass (composeEl : List Elem) : List Elem :=
  (composeEl.filter (fun e => hasClass e "aoO")).filter
    (fun e => !e.hasBtnAttr && sendTextOk (attrOrEmpty e.dataTooltip))

/-- The qualifying candidates of the accessible-label pass, in scan order. -/
def sendQualifiedByAria (composeEl : List Elem) : List Elem :=
  (composeEl.filter ariaSendSelector).filter
    (fun e => !e.hasBtnAttr && sendTextOk (attrOrEmpty e.ariaLabel))

theorem findSendButton_head? (composeEl : List Elem) :
    findSendButton composeEl =
      (sendQualifiedByClass composeEl ++ sendQualifiedByAria composeEl).head? := by
  unfold findSendButton sendQualifiedByClass sendQualifiedByAria
  rw [find?_eq_head?_filter, find?_eq_head?_filter, List.head?_append]
  cases ((composeEl.filter (fun e => hasClass e "aoO")).filter
      (fun e => !e.hasBtnAttr && sendTextOk (attrOrEmpty e.dataTooltip))).head? <;>
    simp

theorem sendTextOk_not_sendAmp (raw : String) (h : sendTextOk raw = true) :
    startsWithStr (toLowerStr raw) "send &" = false := by
  unfold sendTextOk at h
  rcases Bool.or_eq_true _ _ |>.mp h with h1 | h1
  · have he : toLowerStr raw = "send" := eq_of_beq h1
    rw [he]
    decide
  · rcases Bool.and_eq_true _ _ |>.mp h1 with ⟨h2, h3⟩
    simpa using h3

/-- C4: the send-button finder returns the head of the qualifying
candidates, marker-class pass before accessible-label pass, where a
candidate qualifies when it lacks the synthetic marker attribute and its
lowercased tooltip (class pass) or label (aria pass) equals "send" or
starts with "send " but not "send &"; it returns none exactly when no
candidate qualifies, and a qualifying attribute never starts with
"send &". -/
theorem claim_C4 (composeEl : List Elem) :
    findSendButton composeEl =
      (sendQualifiedByClass composeEl ++ sendQualifiedByAria composeEl).head? ∧
    (findSendButton composeEl = none ↔
      sendQualifiedByClass composeEl ++ sendQualifiedByAria composeEl = []) ∧
    (∀ e, findSendButton composeEl = some e → e.hasBtnAttr = false) ∧
    (∀ e, e ∈ sendQualifiedByClass composeEl →
      e.hasBtnAttr = false ∧
      sendTextOk (attrOrEmpty e.dataTooltip) = true ∧
      startsWithStr (toLowerStr (attrOrEmpty e.dataTooltip)) "send &" = false) ∧
    (∀ e, e ∈ sendQualifiedByAria composeEl →
      e.hasBtnAttr = false ∧
      sendTextOk (attrOrEmpty e.ariaLabel) = true ∧
      startsWithStr (toLowerStr (attrOrEmpty e.ariaLabel)) "send &" = false) := by
  have hq1 : ∀ e, e ∈ sendQualifiedByClass composeEl →
      e.hasBtnAttr = false ∧ sendTextOk (attrOrEmpty e.dataTooltip) = true := by
    intro e he
    have := (List.mem_filter.mp he).2
    rcases Bool.and_eq_true _ _ |>.mp this with ⟨h1, h2⟩
    exact ⟨by simpa using h1, h2⟩
  have hq2 : ∀ e, e ∈ sendQualifiedByAria composeEl →
      e.hasBtnAttr = false ∧ sendTextOk (attrOrEmpty e.ariaLabel) = true := by
    intro e he
    have := (List.mem_filter.mp he).2
    rcases Bool.and_eq_true _ _ |>.mp this with ⟨h1, h2⟩
    exact ⟨by simpa using h1, h2⟩
  refine ⟨findSendButton_head? composeEl, ?_, ?_, ?_, ?_⟩
  · rw [findSendButton_head? composeEl]
    exact ⟨fun h => List.head?_eq_none_iff.mp h, fun h => by rw [h]; rfl⟩
  · intro e he
    rw [findSendButton_head? composeEl] at he
    have hmem : e ∈ sendQualifiedByClass composeEl ++ sendQualifiedByAria composeEl :=
      List.mem_of_mem_head? (by rw [he]; rfl)
    rcases List.mem_append.mp hmem with hm | hm
    · exact (hq1 e hm).1
    · exact (hq2 e hm).1
  · intro e he
    obtain ⟨hb, hok⟩ := hq1 e he
    exact ⟨hb, hok, sendTextOk_not_sendAmp _ hok⟩
  · intro e he
    obtain ⟨hb, hok⟩ := hq2 e he
    exact ⟨hb, hok, sendTextOk_not_sendAmp _ hok⟩

/-! ## C2: injection idempotence -/

theorem findSendButton_mem (l : List Elem) (e : Elem)
    (h : findSendButton l = some e) : e ∈ l := by
  rw [findSendButton_head?] at h
  have hm : e ∈ sendQualifiedByClass l ++ sendQualifiedByAria l :=
    List.mem_of_mem_head? (by rw [h]; exact Option.mem_some_iff.mpr rfl)
  rcases List.mem_append.mp hm with hm | hm
  · exact (List.mem_filter.mp (List.mem_filter.mp hm).1).1
  · exact (List.mem_filter.mp (List.mem_filter.mp hm).1).1

theorem insertAfter_countP_le (p : Elem → Bool) (t : Nat) (b : Elem) :
    ∀ l : List Elem, (insertAfter t b l).countP p ≤ l.countP p + 1 := by
  intro l
  induction l with
  | nil => simp [insertAfter]
  | cons e rest ih =>
    by_cases he : e.id == t
    · rw [insertAfter, if_pos he]
      simp only [List.countP_cons]
      by_cases hb : p b = true
      · simp [hb]
        omega
      · simp [hb]
    · rw [insertAfter, if_neg he]
      simp only [List.countP_cons]
      omega

theorem insertAfter_countP_mem (p : Elem → Bool) (t : Nat) (b : Elem) :
    ∀ l : List Elem, (∃ x ∈ l, x.id = t) →
      (insertAfter t b l).countP p = l.countP p + (if p b then 1 else 0) := by
  intro l
  induction l with
  | nil =>
    intro h
    simp at h
  | cons e rest ih =>
    intro h
    by_cases he : e.id == t
    · rw [insertAfter, if_pos he]
      simp only [List.countP_cons]
      omega
    · rw [insertAfter, if_neg he]
      simp only [List.countP_cons]
      have hx : ∃ x ∈ rest, x.id = t := by
        obtain ⟨x, hx, hxt⟩ := h
        rcases List.mem_cons.mp hx with rfl | hmem
        · exact absurd (by simp [hxt]) he
        · exact ⟨x, hmem, hxt⟩
      rw [ih hx]
      omega

theorem injectButton_of_processed (r : Region) (h : r.processed = true) :
    injectButton r = r := by
  rw [injectButton, if_pos h]

theorem injectButton_of_noSend (r : Region) (h1 : r.processed = false)
    (h2 : findSendButton r.elems = none) : injectButton r = r := by
  rw [injectButton, if_neg (by simp [h1]), h2]

theorem injectButton_of_send (r : Region) (sendBtn : Elem) (h1 : r.processed = false)
    (h2 : findSendButton r.elems = some sendBtn) :
    injectButton r =
      { processed := true
        elems := insertAfter sendBtn.id (buildButton sendBtn r.nextId) r.elems
        nextId := r.nextId + 1 } := by
  rw [injectButton, if_neg (by simp [h1]), h2]

theorem injectButton_idem (r : Region) :
    injectButton (injectButton r) = injectButton r := by
  by_cases h1 : r.processed = true
  · rw [injectButton_of_processed r h1, injectButton_of_processed r h1]
  · have h1f : r.processed = false := by
      cases hp : r.processed
      · rfl
      · exact absurd hp h1
    cases h2 : findSendButton r.elems
    · rw [injectButton_of_noSend r h1f h2, injectButton_of_noSend r h1f h2]
    · rw [injectButton_of_send r _ h1f h2]
      exact injectButton_of_processed _ rfl

theorem injectButton_iterate_eq (r : Region) :
    ∀ n, 1 ≤ n → injectButton^[n] r = injectButton r := by
  intro n
  induction n with
  | zero => omega
  | succ m ih =>
    intro _
    by_cases hm : 1 ≤ m
    · rw [Function.iterate_succ_apply' injectButton m r, ih hm, injectButton_idem]
    · have : m = 0 := by omega
      rw [this]
      rfl

theorem injectButton_syntheticCount (r : Region) :
    syntheticCount (injectButton r).elems ≤ syntheticCount r.elems + 1 := by
  by_cases h1 : r.processed = true
  · rw [injectButton_of_processed r h1]
    omega
  · have h1f : r.processed = false := by
      cases hp : r.processed
      · rfl
      · exact absurd hp h1
    cases h2 : findSendButton r.elems
    · rw [injectButton_of_noSend r h1f h2]
      omega
    · rw [injectButton_of_send r _ h1f h2]
      exact insertAfter_countP_le _ _ _ r.elems

/-- C2: injection on a processed region is a no-op, injection is
idempotent so at most one synthetic control is ever inserted over any
number of invocations, a successful injection sets the marker and adds
exactly one marked control, and in the step trace the marker is set
strictly before the control is inserted. -/
theorem claim_C2 (r : Region) :
    (r.processed = true → injectButton r = r) ∧
    injectButton (injectButton r) = injectButton r ∧
    (∀ n, syntheticCount (injectButton^[n] r).elems ≤ syntheticCount r.elems + 1) ∧
    (∀ sendBtn, r.processed = false → findSendButton r.elems = some sendBtn →
      (injectButton r).processed = true ∧
      syntheticCount (injectButton r).elems = syntheticCount r.elems + 1) ∧
    (InjectStep.insertControl ∈ injectButtonSteps r →
      (injectButtonSteps r).indexOf InjectStep.setProcessedMarker <
        (injectButtonSteps r).indexOf InjectStep.insertControl) := by
  refine ⟨injectButton_of_processed r, injectButton_idem r, ?_, ?_, ?_⟩
  · intro n
    by_cases hn : 1 ≤ n
    · rw [injectButton_iterate_eq r n hn]
      exact injectButton_syntheticCount r
    · have : n = 0 := by omega
      rw [this]
      simp
  · intro sendBtn h1 h2
    rw [injectButton_of_send r sendBtn h1 h2]
    refine ⟨rfl, ?_⟩
    have hmem : ∃ x ∈ r.elems, x.id = sendBtn.id :=
      ⟨sendBtn, findSendButton_mem r.elems sendBtn h2, rfl⟩
    have := insertAfter_countP_mem (fun e => e.hasBtnAttr) sendBtn.id
      (buildButton sendBtn r.nextId) r.elems hmem
    simpa [syntheticCount, buildButton] using this
  · intro hmem
    by_cases h1 : r.processed = true
    · rw [injectButtonSteps, if_pos h1] at hmem
      simp at hmem
    · have h1f : ¬ r.processed = true := h1
      cases h2 : findSendButton r.elems
      · rw [injectButtonSteps, if_neg h1f, h2] at hmem
        simp at hmem
      · have heq : injectButtonSteps r =
            [InjectStep.checkProcessed, InjectStep.lookupSendButton,
             InjectStep.setProcessedMarker, InjectStep.buildControl,
             InjectStep.attachShortcutListener, InjectStep.attachButtonKeyListener,
             InjectStep.attachButtonClickListener, InjectStep.insertControl] := by
          rw [injectButtonSteps, if_neg h1f, h2]
        rw [heq]
        decide

/-! ## C10: the injection retry chain -/

theorem retryStep_cases (g : InjectGuards) (a : Nat) (onNF : List RetryEvent) :
    retryStep g a onNF = [RetryEvent.stopRegionGone] ∨
    retryStep g a onNF = [RetryEvent.stopAlreadyProcessed] ∨
    retryStep g a onNF = [RetryEvent.lookupSendButton a, RetryEvent.injectNow a] ∨
    retryStep g a onNF = RetryEvent.lookupSendButton a :: onNF := by
  unfold retryStep
  by_cases h1 : g.inDocument <;> by_cases h2 : g.processed <;>
    by_cases h3 : g.sendButtonFound <;> simp [h1, h2, h3]

theorem lookupSendCount_cons_lookup (a : Nat) (l : List RetryEvent) :
    lookupSendCount (RetryEvent.lookupSendButton a :: l) = lookupSendCount l + 1 := by
  simp [lookupSendCount, List.countP_cons, isLookupSend]

theorem lookupSendCount_cons_wait (ms : Nat) (l : List RetryEvent) :
    lookupSendCount (RetryEvent.wait ms :: l) = lookupSendCount l := by
  simp [lookupSendCount, List.countP_cons, isLookupSend]

theorem injectNowCount_cons_lookup (a : Nat) (l : List RetryEvent) :
    injectNowCount (RetryEvent.lookupSendButton a :: l) = injectNowCount l := by
  simp [injectNowCount, List.countP_cons, isInjectNow]

theorem injectNowCount_cons_wait (ms : Nat) (l : List RetryEvent) :
    injectNowCount (RetryEvent.wait ms :: l) = injectNowCount l := by
  simp [injectNowCount, List.countP_cons, isInjectNow]

theorem tryInject_zero (env : Nat → InjectGuards) (a : Nat) :
    tryInjectWithRetry env a 0 = retryStep (env a) a [] := rfl

theorem tryInject_succ (env : Nat → InjectGuards) (a n : Nat) :
    tryInjectWithRetry env a (n + 1) =
      retryStep (env a) a
        (RetryEvent.wait 300 :: tryInjectWithRetry env (a + 1) n) := rfl

theorem retry_bounds (env : Nat → InjectGuards) :
    ∀ r a,
      lookupSendCount (tryInjectWithRetry env a r) ≤ r + 1 ∧
      injectNowCount (tryInjectWithRetry env a r) ≤ 1 ∧
      (∀ ms, RetryEvent.wait ms ∈ tryInjectWithRetry env a r → ms = 300) ∧
      tryInjectWithRetry env a r ≠ [] ∧
      (∀ ms, (tryInjectWithRetry env a r).getLast? ≠ some (RetryEvent.wait ms)) := by
  intro r
  induction r with
  | zero =>
    intro a
    rw [tryInject_zero]
    rcases retryStep_cases (env a) a [] with h | h | h | h <;> rw [h] <;>
      refine ⟨?_, ?_, ?_, ?_, ?_⟩ <;>
        simp [lookupSendCount, injectNowCount, List.countP_cons, isLookupSend,
          isInjectNow]
  | succ n ih =>
    intro a
    obtain ⟨ih1, ih2, ih3, ih4, ih5⟩ := ih (a + 1)
    rw [tryInject_succ]
    rcases retryStep_cases (env a) a
        (RetryEvent.wait 300 :: tryInjectWithRetry env (a + 1) n) with h | h | h | h <;>
      rw [h]
    · refine ⟨?_, ?_, ?_, ?_, ?_⟩ <;>
        simp [lookupSendCount, injectNowCount, List.countP_cons, isLookupSend,
          isInjectNow]
    · refine ⟨?_, ?_, ?_, ?_, ?_⟩ <;>
        simp [lookupSendCount, injectNowCount, List.countP_cons, isLookupSend,
          isInjectNow]
    · refine ⟨?_, ?_, ?_, ?_, ?_⟩ <;>
        simp [lookupSendCount, injectNowCount, List.countP_cons, isLookupSend,
          isInjectNow]
    · obtain ⟨c, R, hcr⟩ := List.exists_cons_of_ne_nil ih4
      refine ⟨?_, ?_, ?_, ?_, ?_⟩
      · rw [lookupSendCount_cons_lookup, lookupSendCount_cons_wait]
        omega
      · rw [injectNowCount_cons_lookup, injectNowCount_cons_wait]
        exact ih2
      · intro ms hm
        simp only [List.mem_cons] at hm
        rcases hm with h1 | h1 | h1
        · exact absurd h1 (by simp)
        · exact RetryEvent.wait.inj h1
        · exact ih3 ms h1
      · simp
      · intro ms
        rw [hcr]
        simp only [List.getLast?_cons_cons]
        rw [← hcr]
        exact ih5 ms

/-- C10: one retry chain with the default budget performs at most 7
send-button lookups (the initial attempt plus up to 6 retries), injects at
most once, waits exactly 300 ms between attempts, and always terminates:
the trace is nonempty and never ends in a pending wait. -/
theorem claim_C10 (env : Nat → InjectGuards) :
    lookupSendCount (tryInjectWithRetry env 1 6) ≤ 7 ∧
    injectNowCount (tryInjectWithRetry env 1 6) ≤ 1 ∧
    (∀ ms, RetryEvent.wait ms ∈ tryInjectWithRetry env 1 6 → ms = 300) ∧
    tryInjectWithRetry env 1 6 ≠ [] ∧
    (∀ ms, (tryInjectWithRetry env 1 6).getLast? ≠ some (RetryEvent.wait ms)) :=
  retry_bounds env 6 1

/-! ## C7: the debounced scan timer -/

/-- The scheduling invariant: at most one pending scan timer, and any
pending timer is the one named by `scanTimer`. -/
def ScanInv (s : ScanState) : Prop :=
  s.pendingScans.length ≤ 1 ∧ ∀ t ∈ s.pendingScans, s.scanTimer = some t.1

theorem scanInv_initial : ScanInv initialScanState := by
  constructor
  · simp [initialScanState]
  · intro t ht
    simp [initialScanState] at ht

theorem clearPending_eq_nil (s : ScanState) (h : ScanInv s) :
    (match s.scanTimer with
     | some tid => s.pendingScans.filter (fun t => !(t.1 == tid))
     | none => s.pendingScans) = [] := by
  obtain ⟨hlen, hall⟩ := h
  cases hst : s.scanTimer with
  | none =>
    cases hp : s.pendingScans with
    | nil => rfl
    | cons t ts =>
      have := hall t (by rw [hp]; exact List.mem_cons_self t ts)
      rw [hst] at this
      cases this
  | some tid =>
    apply List.filter_eq_nil_iff.mpr
    intro t ht
    have := hall t ht
    rw [hst] at this
    have htid : t.1 = tid := by
      exact (Option.some.inj this).symm
    simp [htid]

theorem scheduleScan_pending (s : ScanState) (d : Nat) (h : ScanInv s) :
    (scheduleScan s d).pendingScans = [(s.nextId, d)] := by
  unfold scheduleScan
  rw [clearPending_eq_nil s h]
  rfl

theorem scanInv_schedule (s : ScanState) (d : Nat) (h : ScanInv s) :
    ScanInv (scheduleScan s d) := by
  constructor
  · rw [scheduleScan_pending s d h]
    rfl
  · intro t ht
    rw [scheduleScan_pending s d h] at ht
    rcases List.mem_singleton.mp ht with rfl
    rfl

theorem scanInv_fire (s : ScanState) (h : ScanInv s) : ScanInv (fireScan s) := by
  constructor
  · show (fireScan s).pendingScans.length ≤ 1
    unfold fireScan
    rw [clearPending_eq_nil s h]
    simp
  · intro t ht
    unfold fireScan at ht
    rw [clearPending_eq_nil s h] at ht
    simp at ht

theorem scanInv_apply (s : ScanState) (op : ScanOp) (h : ScanInv s) :
    ScanInv (applyScanOp s op) := by
  cases op with
  | schedule d => exact scanInv_schedule s d h
  | fire => exact scanInv_fire s h

theorem scanInv_runFrom (ops : List ScanOp) :
    ∀ s, ScanInv s → ScanInv (runScanOps s ops) := by
  induction ops with
  | nil => intro s h; exact h
  | cons op ops ih =>
    intro s h
    exact ih (applyScanOp s op) (scanInv_apply s op h)

/-- C7: starting from the initial state, after any sequence of scheduling
and firing operations at most one scan timer is pending, and one further
scheduling request leaves pending exactly the timer it just set, so of any
burst of requests only the most recent survives. -/
theorem claim_C7 (ops : List ScanOp) :
    (runScanOps initialScanState ops).pendingScans.length ≤ 1 ∧
    (∀ d, (runScanOps initialScanState (ops ++ [ScanOp.schedule d])).pendingScans =
      [((runScanOps initialScanState ops).nextId, d)]) := by
  have hinv := scanInv_runFrom ops initialScanState scanInv_initial
  refine ⟨hinv.1, ?_⟩
  intro d
  show (List.foldl applyScanOp initialScanState (ops ++ [ScanOp.schedule d])).pendingScans = _
  rw [List.foldl_append]
  exact scheduleScan_pending _ d hinv

/-! ## C9: the synthetic control is invisible to every scan -/

theorem filter_skip_middle (p : α → Bool) (e : α) (he : p e = false)
    (l1 l2 : List α) :
    (l1 ++ e :: l2).filter p = (l1 ++ l2).filter p := by
  simp [List.filter_append, List.filter_cons, he]

theorem findSendButton_skip (l1 l2 : List Elem) (e : Elem)
    (he : e.hasBtnAttr = true) :
    findSendButton (l1 ++ e :: l2) = findSendButton (l1 ++ l2) := by
  rw [findSendButton_head?, findSendButton_head?]
  unfold sendQualifiedByClass sendQualifiedByAria
  rw [List.filter_filter, List.filter_filter, List.filter_filter, List.filter_filter,
    filter_skip_middle _ e (by simp [he]) l1 l2,
    filter_skip_middle _ e (by simp [he]) l1 l2]

theorem findNative_skip (l1 l2 : List Elem) (e : Elem)
    (he : e.hasBtnAttr = true) :
    findNativeSendAndArchiveButton (l1 ++ e :: l2) =
      findNativeSendAndArchiveButton (l1 ++ l2) := by
  unfold findNativeSendAndArchiveButton
  rw [find?_filter_and, find?_filter_and, find?_skip_middle _ e (by simp [he]) l1 l2]

theorem findComposeWindowsGo_cons_btn (dw : Elem) (m : Node) (rest : List Node)
    (seen : List Nat) (hm : m.el.hasBtnAttr = true) :
    findComposeWindowsGo dw (m :: rest) seen = findComposeWindowsGo dw rest seen := by
  rw [findComposeWindowsGo, if_pos hm]

theorem findComposeWindowsGo_cons_seen (dw : Elem) (m : Node) (rest : List Node)
    (seen : List Nat) (hm : m.el.hasBtnAttr = false)
    (hc : seen.contains (composeRoot dw m).id = true) :
    findComposeWindowsGo dw (m :: rest) seen = findComposeWindowsGo dw rest seen := by
  rw [findComposeWindowsGo, if_neg (by simp [hm]), if_pos hc]

theorem findComposeWindowsGo_cons_new (dw : Elem) (m : Node) (rest : List Node)
    (seen : List Nat) (hm : m.el.hasBtnAttr = false)
    (hc : ¬ seen.contains (composeRoot dw m).id = true) :
    findComposeWindowsGo dw (m :: rest) seen =
      composeRoot dw m ::
        findComposeWindowsGo dw rest ((composeRoot dw m).id :: seen) := by
  rw [findComposeWindowsGo, if_neg (by simp [hm]), if_neg hc]

theorem findComposeWindowsGo_filter (dw : Elem) :
    ∀ cands seen, findComposeWindowsGo dw cands seen =
      findComposeWindowsGo dw (cands.filter (fun n => !n.el.hasBtnAttr)) seen := by
  intro cands
  induction cands with
  | nil => intro seen; rfl
  | cons m rest ih =>
    intro seen
    by_cases hm : m.el.hasBtnAttr = true
    · rw [List.filter_cons, if_neg (by simp [hm]), findComposeWindowsGo_cons_btn dw m rest seen hm]
      exact ih seen
    · have hmf : m.el.hasBtnAttr = false := by
        cases hb : m.el.hasBtnAttr
        · rfl
        · exact absurd hb hm
      rw [List.filter_cons, if_pos (by simp [hmf])]
      by_cases hc : seen.contains (composeRoot dw m).id = true
      · rw [findComposeWindowsGo_cons_seen dw m rest seen hmf hc,
          findComposeWindowsGo_cons_seen dw m _ seen hmf hc]
        exact ih seen
      · rw [findComposeWindowsGo_cons_new dw m rest seen hmf hc,
          findComposeWindowsGo_cons_new dw m _ seen hmf hc,
          ih ((composeRoot dw m).id :: seen)]

theorem findComposeWindows_skip (dw : Elem) (ns1 ns2 : List Node) (n : Node)
    (he : n.el.hasBtnAttr = true) :
    findComposeWindows dw (ns1 ++ n :: ns2) = findComposeWindows dw (ns1 ++ ns2) := by
  unfold findComposeWindows
  rw [findComposeWindowsGo_filter dw (sendCandidates (ns1 ++ n :: ns2)) [],
    findComposeWindowsGo_filter dw (sendCandidates (ns1 ++ ns2)) []]
  congr 1
  simp only [sendCandidates, List.filter_append, List.filter_filter, List.filter_cons]
  by_cases h1 : hasClass n.el "aoO" = true <;>
    by_cases h2 : ariaSendSelector n.el = true <;>
    simp [h1, h2, List.filter_cons, he, List.filter_filter]

/-- C9: the built synthetic control carries the send-button marker class
`aoO` and the synthetic marker attribute, yet the send-button finder, the
native combined-control finder and the compose-window scan all ignore any
element carrying the marker attribute wherever it is inserted, so the
injected control is never returned as a host control and never yields a
region. -/
theorem claim_C9 (sendBtn : Elem) (newId : Nat) :
    (buildButton sendBtn newId).hasBtnAttr = true ∧
    "aoO" ∈ (buildButton sendBtn newId).classes ∧
    (∀ l1 l2 e, e.hasBtnAttr = true →
      findSendButton (l1 ++ e :: l2) = findSendButton (l1 ++ l2)) ∧
    (∀ l1 l2 e, e.hasBtnAttr = true →
      findNativeSendAndArchiveButton (l1 ++ e :: l2) =
        findNativeSendAndArchiveButton (l1 ++ l2)) ∧
    (∀ dwEl ns1 ns2 n, n.el.hasBtnAttr = true →
      findComposeWindows dwEl (ns1 ++ n :: ns2) = findComposeWindows dwEl (ns1 ++ ns2)) := by
  refine ⟨rfl, ?_, ?_, ?_, ?_⟩
  · simp [buildButton]
  · intro l1 l2 e he
    exact findSendButton_skip l1 l2 e he
  · intro l1 l2 e he
    exact findNative_skip l1 l2 e he
  · intro dwEl ns1 ns2 n he
    exact findComposeWindows_skip dwEl ns1 ns2 n he


end GmailSAB
